import Mathlib

/-!
Verification of the IRWA-2025-G_003 search-engine core.

Shallow embedding of:
- `project_progress/part_2/evaluation.py` (retrieval metrics, over ℚ);
- `project_progress/part_2/indexing.py`  (`create_index_tfidf`, over ℝ);
- `project_progress/part_3/ranking.py`   (TF-IDF cosine / BM25 / custom rankers);
- the BM25 branch of `myapp/search/search_engine.py` (`SearchEngine.search`).

Python dictionaries are modelled as total functions together with the
convention that was checked against the source: in each case the code only
ever appends to / increments a dict entry, so "the key is present" is
equivalent to "the value differs from the default" and is stated explicitly
where a claim needs it.  Python floats are modelled as real numbers (the
metric functions, which only ever divide integers, are modelled over ℚ so
that concrete runs can be settled by `decide`).
-/

namespace evaluation

/-- `compute_precision_at_K` of `evaluation.py` (lines 4-16): clamp `K` to
`len(docs)`, count the members of `docs[:K]` that occur in `benchmark`,
divide by the clamped `K`; `0.0` when `K == 0` or `docs` is empty. -/
def compute_precision_at_K (docs benchmark : List String) (K : Nat) : ℚ :=
  if K = 0 ∨ docs.length = 0 then 0
  else
    let Kc := min K docs.length
    (((docs.take Kc).countP (fun d => d ∈ benchmark) : ℚ)) / (Kc : ℚ)

/-- `compute_recall_at_K` of `evaluation.py` (lines 18-30): clamp `K` to
`len(benchmark)`, count the members of `benchmark[:K]` that occur in `docs`,
divide by the clamped `K`; `0.0` when `K == 0` or `benchmark` is empty. -/
def compute_recall_at_K (docs benchmark : List String) (K : Nat) : ℚ :=
  if K = 0 ∨ benchmark.length = 0 then 0
  else
    let Kc := min K benchmark.length
    (((benchmark.take Kc).countP (fun d => d ∈ docs) : ℚ)) / (Kc : ℚ)

/-- The loop of `compute_average_precision_at_K`: walks the ranked list
carrying the 1-based position `idx`, the number of relevant documents seen
`tp`, and the accumulated sum of precisions `ap`; returns the final
`(tp, ap)`. -/
def apLoop (benchmark : List String) : List String → Nat → Nat → ℚ → Nat × ℚ
  | [], _, tp, ap => (tp, ap)
  | d :: ds, idx, tp, ap =>
    if d ∈ benchmark then
      apLoop benchmark ds (idx + 1) (tp + 1) (ap + ((tp : ℚ) + 1) / ((idx : ℚ) + 1))
    else
      apLoop benchmark ds (idx + 1) tp ap

/-- `compute_average_precision_at_K` of `evaluation.py` (lines 32-46). -/
def compute_average_precision_at_K (docs benchmark : List String) (K : Nat) : ℚ :=
  let r := apLoop benchmark (docs.take K) 0 0 0
  if r.1 = 0 then 0 else r.2 / (r.1 : ℚ)

/-- The inner loop of `compute_mean_reciprocal_rank`: `for idx, doc in
enumerate(ranking, start=1): if doc in rel: total += 1/idx; break`.  The
contribution of one ranking, starting from 1-based position `i`. -/
def rrLoop (rel : List String) : List String → Nat → ℚ
  | [], _ => 0
  | d :: ds, i => if d ∈ rel then 1 / (i : ℚ) else rrLoop rel ds (i + 1)

/-- `compute_mean_average_precision` of `evaluation.py` (lines 55-59).  The
final `total / len(rankings)` raises `ZeroDivisionError` on an empty batch;
the fallible division is modelled with `Option` (`none` = the exception). -/
def compute_mean_average_precision (rankings benchmarks : List (List String)) :
    Option ℚ :=
  let total := ((rankings.zip benchmarks).map
    (fun pr => compute_average_precision_at_K pr.1 pr.2 pr.1.length)).sum
  if rankings.length = 0 then none else some (total / (rankings.length : ℚ))

/-- `compute_mean_reciprocal_rank` of `evaluation.py` (lines 61-68), with the
same `Option`-modelled division as `compute_mean_average_precision`. -/
def compute_mean_reciprocal_rank (rankings benchmarks : List (List String)) :
    Option ℚ :=
  let total := ((rankings.zip benchmarks).map (fun pr => rrLoop pr.2 pr.1 1)).sum
  if rankings.length = 0 then none else some (total / (rankings.length : ℚ))

/-- Specification-side notion for the MRR claim: the 0-based position of the
first document of the ranking that belongs to the relevance list, if any. -/
def firstRelIndex (rel : List String) : List String → Option Nat
  | [] => none
  | d :: ds => if d ∈ rel then some 0 else (firstRelIndex rel ds).map (fun j => j + 1)

/-- `rrLoop` computes the reciprocal of the 1-based rank of the first
relevant hit, and 0 when there is none. -/
theorem rrLoop_eq_firstRelIndex (rel : List String) (l : List String) :
    ∀ i : Nat, rrLoop rel l i =
      (firstRelIndex rel l).elim 0 (fun j => 1 / ((i : ℚ) + (j : ℚ))) := by
  induction l with
  | nil => intro i; simp [rrLoop, firstRelIndex]
  | cons d ds ih =>
    intro i
    by_cases hd : d ∈ rel
    · simp [rrLoop, firstRelIndex, hd]
    · have hstep := ih (i + 1)
      simp only [rrLoop, firstRelIndex, hd, if_neg, ite_false]
      rw [hstep]
      cases hfi : firstRelIndex rel ds with
      | none => simp
      | some j =>
        simp only [Option.map, Option.elim]
        push_cast
        ring_nf

end evaluation

/-- C3: on docs = ["D3","D1","D2"], benchmark = ["D1","D2","D3"], K = 3 the
code returns recall@3 = 1, precision@3 = 1, average_precision@3 = 1 (every
retrieved document is relevant, so the accumulated precisions are 1/1, 2/2,
3/3), and the MRR contribution of this single ranking is 1 (first relevant
document at rank 1).  This is the amended form of the claim: the claim's
value (1/2 + 2/3 + 3/3)/3 for the average precision is refuted by
`c3_ap_counterexample`. -/
theorem c3_eval :
    evaluation.compute_recall_at_K ["D3", "D1", "D2"] ["D1", "D2", "D3"] 3 = 1 ∧
    evaluation.compute_precision_at_K ["D3", "D1", "D2"] ["D1", "D2", "D3"] 3 = 1 ∧
    evaluation.compute_average_precision_at_K ["D3", "D1", "D2"] ["D1", "D2", "D3"] 3 = 1 ∧
    evaluation.compute_mean_reciprocal_rank [["D3", "D1", "D2"]] [["D1", "D2", "D3"]] =
      some 1 := by
  refine ⟨?_, ?_, ?_, ?_⟩ <;>
    norm_num [evaluation.compute_recall_at_K, evaluation.compute_precision_at_K,
      evaluation.compute_average_precision_at_K, evaluation.apLoop,
      evaluation.compute_mean_reciprocal_rank, evaluation.rrLoop]

/-- C3, counterexample to the claimed value of the average precision: on
docs = ["D3","D1","D2"], benchmark = ["D1","D2","D3"], K = 3 the code does
not return (1/2 + 2/3 + 3/3)/3 ≈ 0.7222 (it returns 1). -/
theorem c3_ap_counterexample :
    evaluation.compute_average_precision_at_K ["D3", "D1", "D2"] ["D1", "D2", "D3"] 3 ≠
      (1 / 2 + 2 / 3 + 3 / 3) / 3 := by
  norm_num [evaluation.compute_average_precision_at_K, evaluation.apLoop]

/-- Counting the members of a duplicate-free list `l` that occur in `docs` is
the cardinality of the intersection of the two corresponding finite sets. -/
theorem countP_mem_eq_inter_card (l docs : List String) (h : l.Nodup) :
    l.countP (fun d => d ∈ docs) = (l.toFinset ∩ docs.toFinset).card := by
  rw [List.countP_eq_length_filter]
  rw [← List.toFinset_card_of_nodup (h.filter _)]
  rw [List.toFinset_filter]
  congr 1
  rw [← Finset.filter_mem_eq_inter]
  apply Finset.filter_congr
  intro x _
  simp

/-- C7: `compute_recall_at_K` returns 0 when `K = 0` or the benchmark is
empty, and otherwise (for a duplicate-free truncated benchmark) equals
|benchmark[:Kc] ∩ docs| / Kc with Kc = min(K, len(benchmark)): the benchmark
itself is truncated to K and membership is tested against the full ranked
list. -/
theorem c7_recall (docs benchmark : List String) (K : Nat) :
    ((K = 0 ∨ benchmark = []) → evaluation.compute_recall_at_K docs benchmark K = 0) ∧
    (K ≠ 0 → benchmark ≠ [] → (benchmark.take (min K benchmark.length)).Nodup →
      evaluation.compute_recall_at_K docs benchmark K =
        (((benchmark.take (min K benchmark.length)).toFinset ∩ docs.toFinset).card : ℚ) /
          ((min K benchmark.length : Nat) : ℚ)) := by
  constructor
  · rintro (h | h) <;> simp [evaluation.compute_recall_at_K, h]
  · intro hK hb hnd
    have hlen : benchmark.length ≠ 0 := fun hh => hb (List.length_eq_zero.mp hh)
    simp only [evaluation.compute_recall_at_K]
    rw [if_neg (by simp [hK, hlen])]
    rw [countP_mem_eq_inter_card _ _ hnd]

/-- C7, witness: docs = ["D1"], benchmark = ["D1","D2"], K = 1. -/
theorem c7_witness :
    (1 : Nat) ≠ 0 ∧ (["D1", "D2"] : List String) ≠ [] ∧
    ((["D1", "D2"] : List String).take (min 1 (["D1", "D2"] : List String).length)).Nodup ∧
    evaluation.compute_recall_at_K ["D1"] ["D1", "D2"] 1 =
      ((((["D1", "D2"] : List String).take (min 1 (["D1", "D2"] : List String).length)).toFinset ∩
          (["D1"] : List String).toFinset).card : ℚ) /
        ((min 1 (["D1", "D2"] : List String).length : Nat) : ℚ) :=
  ⟨by decide, by decide, by decide,
    (c7_recall ["D1"] ["D1", "D2"] 1).2 (by decide) (by decide) (by decide)⟩

/-- C9: `compute_mean_average_precision` and `compute_mean_reciprocal_rank`
divide by `len(rankings)` with no guard.  On an empty batch the division
raises (`none`); on a non-empty batch they return the mean per-ranking
average precision computed with K = len(ranking), and the mean reciprocal
rank of the first relevant hit (0 contribution for a ranking with no hit). -/
theorem c9_mean (rankings benchmarks : List (List String)) :
    (rankings = [] →
      evaluation.compute_mean_average_precision rankings benchmarks = none ∧
      evaluation.compute_mean_reciprocal_rank rankings benchmarks = none) ∧
    (rankings ≠ [] →
      evaluation.compute_mean_average_precision rankings benchmarks =
        some ((((rankings.zip benchmarks).map
            (fun pr => evaluation.compute_average_precision_at_K pr.1 pr.2 pr.1.length)).sum) /
          (rankings.length : ℚ)) ∧
      evaluation.compute_mean_reciprocal_rank rankings benchmarks =
        some ((((rankings.zip benchmarks).map
            (fun pr => (evaluation.firstRelIndex pr.2 pr.1).elim 0
              (fun j => 1 / ((j : ℚ) + 1)))).sum) /
          (rankings.length : ℚ))) := by
  constructor
  · intro h
    subst h
    constructor <;>
      simp [evaluation.compute_mean_average_precision,
        evaluation.compute_mean_reciprocal_rank]
  · intro h
    have hlen : rankings.length ≠ 0 := fun hh => h (List.length_eq_zero.mp hh)
    constructor
    · simp [evaluation.compute_mean_average_precision, hlen]
    · have hmap : (rankings.zip benchmarks).map (fun pr => evaluation.rrLoop pr.2 pr.1 1) =
          (rankings.zip benchmarks).map
            (fun pr => (evaluation.firstRelIndex pr.2 pr.1).elim 0
              (fun j => 1 / ((j : ℚ) + 1))) := by
        apply List.map_congr_left
        intro pr _
        rw [evaluation.rrLoop_eq_firstRelIndex]
        cases evaluation.firstRelIndex pr.2 pr.1 <;> simp [add_comm]
      simp only [evaluation.compute_mean_reciprocal_rank, hmap]
      rw [if_neg hlen]

/-- C9, witness: the empty batch raises (returns `none`), and the singleton
batch with ranking ["D1"] and benchmark ["D1"] returns the stated means. -/
theorem c9_witness :
    (([] : List (List String)) = [] ∧
      evaluation.compute_mean_average_precision [] [] = none ∧
      evaluation.compute_mean_reciprocal_rank [] [] = none) ∧
    (([["D1"]] : List (List String)) ≠ [] ∧
      evaluation.compute_mean_average_precision [["D1"]] [["D1"]] =
        some (((([["D1"]] : List (List String)).zip [["D1"]]).map
            (fun pr => evaluation.compute_average_precision_at_K pr.1 pr.2 pr.1.length)).sum /
          (([["D1"]] : List (List String)).length : ℚ)) ∧
      evaluation.compute_mean_reciprocal_rank [["D1"]] [["D1"]] =
        some (((([["D1"]] : List (List String)).zip [["D1"]]).map
            (fun pr => (evaluation.firstRelIndex pr.2 pr.1).elim 0
              (fun j => 1 / ((j : ℚ) + 1)))).sum /
          (([["D1"]] : List (List String)).length : ℚ))) :=
  ⟨⟨rfl, (c9_mean [] []).1 rfl⟩,
    ⟨by simp, (c9_mean [["D1"]] [["D1"]]).2 (by simp)⟩⟩

namespace indexing

/-- The slice of `ProcessedDocument` (part_1/data_preparation.py) consumed by
`create_index_tfidf`: the document id, the title and the merged normalized
token sequence `search_text`. -/
structure ProcessedDocument where
  pid : String
  title : String
  search_text : List String

/-- `np.round(x, 4)`.  `round` rounds half away from zero upward while
NumPy rounds half to even; the two agree except at exact .5 ties, which no
value in this development hits. -/
noncomputable def round4 (x : ℝ) : ℝ := ((round (x * 10000) : ℤ) : ℝ) / 10000

/-- The loop `for pos, term in enumerate(doc.search_text)` restricted to one
term: the 0-based positions (counted from `p`) at which `t` occurs. -/
def positionsFrom (t : String) : List String → Nat → List Nat
  | [], _ => []
  | w :: ws, p => (if w = t then [p] else []) ++ positionsFrom t ws (p + 1)

/-- The positions list stored for term `t` of document `d`
(`current_doc_index[t][1]` in the source). -/
def positionsOf (t : String) (d : ProcessedDocument) : List Nat :=
  positionsFrom t d.search_text 0

/-- The key set of `current_doc_index`: the distinct terms of the document. -/
def termsOf (d : ProcessedDocument) : List String := d.search_text.dedup

/-- `norm` before the square root: `sum over terms of len(positions) ** 2`. -/
def normSqNat (d : ProcessedDocument) : Nat :=
  ((termsOf d).map (fun t => (positionsOf t d).length ^ 2)).sum

/-- The TF normalization factor `norm = sqrt(sum of squared counts)`. -/
noncomputable def norm (d : ProcessedDocument) : ℝ := Real.sqrt (normSqNat d)

/-- The stored normalized term frequency `np.round(freq / norm, 4)`. -/
noncomputable def tfVal (t : String) (d : ProcessedDocument) : ℝ :=
  round4 (((positionsOf t d).length : ℝ) / norm d)

/-- One document's contribution to the inverted index: for every term of the
document, append `(pid, positions)` to that term's posting list. -/
def indexStep (acc : String → List (String × List Nat)) (d : ProcessedDocument) :
    String → List (String × List Nat) :=
  fun t => if t ∈ d.search_text then acc t ++ [(d.pid, positionsOf t d)] else acc t

/-- The inverted index built by `create_index_tfidf` (indexing.py lines
37-63), as a total function with default `[]` (a term is present in the
dict iff its posting list is non-empty). -/
def index (documents : List ProcessedDocument) : String → List (String × List Nat) :=
  documents.foldl indexStep (fun _ => [])

/-- One document's contribution to the `tf` table: append the rounded
normalized term frequency for every term of the document. -/
noncomputable def tfStep (acc : String → List ℝ) (d : ProcessedDocument) : String → List ℝ :=
  fun t => if t ∈ d.search_text then acc t ++ [tfVal t d] else acc t

/-- The term-frequency table of `create_index_tfidf`. -/
noncomputable def tf (documents : List ProcessedDocument) : String → List ℝ :=
  documents.foldl tfStep (fun _ => [])

/-- One document's contribution to the `df` table: `df[term] += 1` for every
term of the document. -/
def dfStep (acc : String → Nat) (d : ProcessedDocument) : String → Nat :=
  fun t => if t ∈ d.search_text then acc t + 1 else acc t

/-- The document-frequency table of `create_index_tfidf`. -/
def df (documents : List ProcessedDocument) : String → Nat :=
  documents.foldl dfStep (fun _ => 0)

/-- The idf table: `for term in df: idf[term] = np.round(np.log(N/df[term]),
4)`.  The dict iterates exactly over the terms with `df > 0`, so the table
is modelled as a total function that is `0` outside that key set (a term has
an idf entry iff `0 < df`). -/
noncomputable def idf (documents : List ProcessedDocument) : String → ℝ :=
  fun t =>
    if 0 < df documents t then
      round4 (Real.log ((documents.length : ℝ) / (df documents t : ℝ)))
    else 0

/-- The three folds advance in lock step: each document appends one posting
and one tf entry, and adds 1 to df, exactly for its own terms. -/
theorem foldl_len_invariant (documents : List ProcessedDocument)
    (ia : String → List (String × List Nat)) (ta : String → List ℝ)
    (da : String → Nat) (t : String)
    (h1 : (ia t).length = da t) (h2 : (ta t).length = da t) :
    ((documents.foldl indexStep ia) t).length = (documents.foldl dfStep da) t ∧
    ((documents.foldl tfStep ta) t).length = (documents.foldl dfStep da) t := by
  induction documents generalizing ia ta da with
  | nil => exact ⟨h1, h2⟩
  | cons d ds ih =>
    simp only [List.foldl_cons]
    apply ih
    · by_cases hm : t ∈ d.search_text <;> simp [indexStep, dfStep, hm, h1]
    · by_cases hm : t ∈ d.search_text <;> simp [tfStep, dfStep, hm, h2]

/-- Lengths of the built tables, stated over the builders themselves. -/
theorem len_eq_df (documents : List ProcessedDocument) (t : String) :
    (index documents t).length = df documents t ∧
    (tf documents t).length = df documents t :=
  foldl_len_invariant documents (fun _ => []) (fun _ => []) (fun _ => 0) t rfl rfl

end indexing

/-- C5: after `create_index_tfidf` runs on any ordered document collection,
for every term the posting list and the term-frequency list have the same
length, equal to the stored document frequency of the term. -/
theorem c5_lengths (documents : List indexing.ProcessedDocument) (t : String) :
    (indexing.index documents t).length = indexing.df documents t ∧
    (indexing.tf documents t).length = indexing.df documents t :=
  indexing.len_eq_df documents t

/-- C6: every term with positive document frequency has the idf entry
`round4(ln(N / df))`; a term occurring in no document is absent from the
inverted index (and gets the default value outside the idf key set), and
every term present in the inverted index has `0 < df`, hence an idf entry —
the idf computation never divides by zero. -/
theorem c6_idf (documents : List indexing.ProcessedDocument) (t : String) :
    (0 < indexing.df documents t →
      indexing.idf documents t =
        indexing.round4 (Real.log ((documents.length : ℝ) /
          (indexing.df documents t : ℝ)))) ∧
    (indexing.df documents t = 0 →
      indexing.index documents t = [] ∧ indexing.idf documents t = 0) ∧
    (indexing.index documents t ≠ [] → 0 < indexing.df documents t) := by
  have hlen := indexing.len_eq_df documents t
  refine ⟨?_, ?_, ?_⟩
  · intro h
    simp [indexing.idf, h]
  · intro h
    constructor
    · have h0 : (indexing.index documents t).length = 0 := by rw [hlen.1, h]
      exact List.length_eq_zero.mp h0
    · simp [indexing.idf, h]
  · intro h
    rcases Nat.eq_zero_or_pos (indexing.df documents t) with h0 | h0
    · exact absurd (List.length_eq_zero.mp (by rw [hlen.1, h0])) h
    · exact h0

/-- C6, witness: one document with one token "a"; its df is positive and the
theorem yields the idf equation for it. -/
theorem c6_witness :
    0 < indexing.df [⟨"d1", "T", ["a"]⟩] "a" ∧
    indexing.idf [⟨"d1", "T", ["a"]⟩] "a" =
      indexing.round4 (Real.log
        ((([⟨"d1", "T", ["a"]⟩] : List indexing.ProcessedDocument).length : ℝ) /
          (indexing.df [⟨"d1", "T", ["a"]⟩] "a" : ℝ))) := by
  have hdf : indexing.df [(⟨"d1", "T", ["a"]⟩ : indexing.ProcessedDocument)] "a" = 1 := by
    simp [indexing.df, indexing.dfStep]
  exact ⟨by rw [hdf]; norm_num,
    (c6_idf [⟨"d1", "T", ["a"]⟩] "a").1 (by rw [hdf]; norm_num)⟩

namespace indexing

/-- Dividing every summand by a constant divides the sum. -/
theorem sum_map_div (l : List String) (f : String → ℝ) (a : ℝ) :
    (l.map (fun t => f t / a)).sum = (l.map f).sum / a := by
  induction l with
  | nil => simp
  | cons x xs ih => simp [ih, add_div]

/-- A sum of squared counts commutes with the cast to ℝ. -/
theorem sum_map_cast_sq (l : List String) (g : String → Nat) :
    (l.map (fun t => ((g t : ℝ)) ^ 2)).sum = (((l.map (fun t => g t ^ 2)).sum : Nat) : ℝ) := by
  induction l with
  | nil => simp
  | cons x xs ih =>
    simp only [List.map_cons, List.sum_cons, ih]
    push_cast
    ring

/-- The head of the token list occurs at position `p` of its own suffix. -/
theorem positionsFrom_cons_self (w : String) (ws : List String) (p : Nat) :
    0 < (positionsFrom w (w :: ws) p).length := by
  simp [positionsFrom]

/-- A document with at least one token has a positive squared norm. -/
theorem normSqNat_pos (d : ProcessedDocument) (h : d.search_text ≠ []) :
    0 < normSqNat d := by
  obtain ⟨w, ws, hws⟩ := List.exists_cons_of_ne_nil h
  have hmem : w ∈ termsOf d := by
    rw [termsOf, List.mem_dedup, hws]
    exact List.mem_cons_self w ws
  have hpos : 0 < (positionsOf w d).length := by
    rw [positionsOf, hws]
    exact positionsFrom_cons_self w ws 0
  have hterm : 0 < (positionsOf w d).length ^ 2 := by positivity
  have hin : (positionsOf w d).length ^ 2 ∈
      (termsOf d).map (fun t => (positionsOf t d).length ^ 2) :=
    List.mem_map_of_mem _ hmem
  exact lt_of_lt_of_le hterm
    (List.single_le_sum (fun x _ => Nat.zero_le x) _ hin)

end indexing

/-- C4 (amended): for every document with at least one token the index
builder stores, for each of its terms, `round4(occurrence_count / norm)`,
and the per-document vector of unrounded normalized frequencies
`occurrence_count / norm` has squared L2 norm exactly 1.  The original
claim, which asserts norm 1 for the stored (rounded) values, is refuted by
`c4_counterexample`. -/
theorem c4_tf_norm (d : indexing.ProcessedDocument) (h : d.search_text ≠ []) :
    (∀ t : String, indexing.tf [d] t =
      if t ∈ d.search_text then [indexing.tfVal t d] else []) ∧
    ((indexing.termsOf d).map
      (fun t => (((indexing.positionsOf t d).length : ℝ) / indexing.norm d) ^ 2)).sum = 1 := by
  constructor
  · intro t
    by_cases hm : t ∈ d.search_text <;> simp [indexing.tf, indexing.tfStep, hm]
  · have hS : 0 < indexing.normSqNat d := indexing.normSqNat_pos d h
    have hSR : (0 : ℝ) < (indexing.normSqNat d : ℝ) := by exact_mod_cast hS
    have hnorm : indexing.norm d ^ 2 = (indexing.normSqNat d : ℝ) :=
      Real.sq_sqrt hSR.le
    simp only [div_pow]
    rw [indexing.sum_map_div, indexing.sum_map_cast_sq, hnorm]
    have hdef : indexing.normSqNat d =
        ((indexing.termsOf d).map (fun t => (indexing.positionsOf t d).length ^ 2)).sum := rfl
    rw [← hdef]
    exact div_self (ne_of_gt hSR)

/-- C4, witness: the single-token document ["a"] has norm 1 and the theorem
applies to it. -/
theorem c4_witness :
    ((⟨"d1", "T", ["a"]⟩ : indexing.ProcessedDocument).search_text ≠ []) ∧
    ((indexing.termsOf ⟨"d1", "T", ["a"]⟩).map
      (fun t => (((indexing.positionsOf t ⟨"d1", "T", ["a"]⟩).length : ℝ) /
        indexing.norm ⟨"d1", "T", ["a"]⟩) ^ 2)).sum = 1 :=
  ⟨by simp, (c4_tf_norm ⟨"d1", "T", ["a"]⟩ (by simp)).2⟩

/-- A two-token document on which the rounding of the stored TF values is
visible: both terms get the stored value `round4(1/sqrt 2) = 0.7071`. -/
def docAB : indexing.ProcessedDocument := ⟨"d1", "T", ["a", "b"]⟩

/-- C4, counterexample: for the document with tokens ["a", "b"] the stored
term-frequency vector is (0.7071, 0.7071), whose L2 norm is
sqrt(0.99998082), not 1 — the 4-decimal rounding breaks exact normality. -/
theorem c4_counterexample :
    Real.sqrt (((indexing.termsOf docAB).map
      (fun t => indexing.tfVal t docAB ^ 2)).sum) ≠ 1 := by
  have hspos : (0 : ℝ) < Real.sqrt 2 := Real.sqrt_pos.mpr (by norm_num)
  have hlb : (1.41421 : ℝ) < Real.sqrt 2 := by
    rw [show (1.41421 : ℝ) < Real.sqrt 2 ↔ (1.41421 : ℝ) ^ 2 < 2 from
      Real.lt_sqrt (by norm_num)]
    norm_num
  have hub : Real.sqrt 2 < 1.41422 := by
    rw [Real.sqrt_lt' (by norm_num)]
    norm_num
  have hv1 : 10000 / Real.sqrt 2 < 7071.4 := by
    rw [div_lt_iff₀ hspos]
    nlinarith [hlb]
  have hv2 : (7070.6 : ℝ) < 10000 / Real.sqrt 2 := by
    rw [lt_div_iff₀ hspos]
    nlinarith [hub]
  have hround : round ((1 / Real.sqrt 2) * 10000) = (7071 : ℤ) := by
    have harg : (1 / Real.sqrt 2) * 10000 = 10000 / Real.sqrt 2 := by ring
    rw [harg, round_eq, Int.floor_eq_iff]
    constructor
    · push_cast
      linarith [hv2]
    · push_cast
      linarith [hv1]
  have htf0 : indexing.round4 (1 / Real.sqrt 2) = 7071 / 10000 := by
    rw [indexing.round4, hround]
    norm_num
  have h2 : indexing.normSqNat docAB = 2 := by decide
  have hnorm : indexing.norm docAB = Real.sqrt 2 := by
    rw [indexing.norm, h2]
    norm_num
  have hlena : (indexing.positionsOf "a" docAB).length = 1 := by decide
  have hlenb : (indexing.positionsOf "b" docAB).length = 1 := by decide
  have htfa : indexing.tfVal "a" docAB = 7071 / 10000 := by
    rw [indexing.tfVal, hnorm, hlena, ← htf0]
    norm_num
  have htfb : indexing.tfVal "b" docAB = 7071 / 10000 := by
    rw [indexing.tfVal, hnorm, hlenb, ← htf0]
    norm_num
  have hterms : indexing.termsOf docAB = ["a", "b"] := by decide
  have hsum : ((indexing.termsOf docAB).map
      (fun t => indexing.tfVal t docAB ^ 2)).sum = 2 * (7071 / 10000 : ℝ) ^ 2 := by
    rw [hterms]
    simp only [List.map_cons, List.map_nil, List.sum_cons, List.sum_nil]
    rw [htfa, htfb]
    ring
  intro heq
  rw [Real.sqrt_eq_one, hsum] at heq
  norm_num at heq

namespace ranking

/-- The loaded inverted index consumed by the rankers: an ordered mapping
term → list of (doc id, positions).  The order of the entries models Python
dict iteration order, which `compute_avg_doc_len` depends on. -/
abbrev Index := List (String × List (String × List Nat))

/-- Dict lookup `index[t]` / `t in index`. -/
def lookupIdx (idx : Index) (t : String) : Option (List (String × List Nat)) :=
  (idx.find? (fun e => e.1 == t)).map Prod.snd

/-- `set(pid for pid, _ in index[t])`, empty when `t` is not in the index. -/
def postingsSet (idx : Index) (t : String) : Finset String :=
  (((lookupIdx idx t).getD []).map Prod.fst).toFinset

/-- The shared candidate loop of `rank_tfidf_cosine` / `rank_bm25` /
`rank_custom_cosine` (ranking.py lines 57-68, 164-173, 208-215): outer
`none` = the early `return []` on a missing term; inner `Option` =
`candidate_docs` being Python `None` before the first term. -/
def candLoop (idx : Index) : List String → Option (Finset String) →
    Option (Option (Finset String))
  | [], cand => some cand
  | t :: ts, cand =>
    match lookupIdx idx t with
    | none => none
    | some ps =>
      candLoop idx ts (some (match cand with
        | none => (ps.map Prod.fst).toFinset
        | some c => c ∩ (ps.map Prod.fst).toFinset))

/-- The candidate document set actually scored: empty on a missing term, on
an empty query (`candidate_docs` still `None` is falsy) and on an empty
intersection (`if not candidate_docs: return []`). -/
def candidateDocs (query_terms : List String) (idx : Index) : Finset String :=
  match candLoop idx query_terms none with
  | none => ∅
  | some none => ∅
  | some (some c) => if c = ∅ then ∅ else c

/-- `compute_doc_len` (ranking.py lines 110-117): the total number of
occurrences of the document across all posting lists. -/
def compute_doc_len (pid : String) (idx : Index) : Nat :=
  (idx.map (fun e =>
    ((e.2.filter (fun p => p.1 == pid)).map (fun p => p.2.length)).sum)).sum

/-- One step of the `seen`/`lengths` loop of `compute_avg_doc_len`: a
document's length is recorded only the first time the document is seen —
i.e. the length of its positions list under the first term enumerated. -/
def avgStep (st : List String × List Nat) (p : String × List Nat) :
    List String × List Nat :=
  if p.1 ∈ st.1 then st else (st.1 ++ [p.1], st.2 ++ [p.2.length])

/-- `compute_avg_doc_len` (ranking.py lines 120-133). -/
noncomputable def compute_avg_doc_len (idx : Index) : ℝ :=
  let st := idx.foldl (fun st e => e.2.foldl avgStep st)
    (([], []) : List String × List Nat)
  if st.2 = [] then 1 else ((st.2.sum : Nat) : ℝ) / (st.2.length : ℝ)

/-- The list of documents that appear in any posting list, in first-seen
order. -/
def docsInPostings (idx : Index) : List String :=
  ((idx.map (fun e => e.2.map Prod.fst)).flatten).dedup

/-- The spec's words for the average document length, for comparison with
`compute_avg_doc_len`: the mean of `compute_doc_len` over all documents
that appear in any posting list (1.0 when there are none, as in the code's
empty branch). -/
noncomputable def avgDocLenSpec (idx : Index) : ℝ :=
  if docsInPostings idx = [] then 1
  else (((docsInPostings idx).map (fun pid => compute_doc_len pid idx)).sum : ℕ) /
    ((docsInPostings idx).length : ℝ)

/-- BM25 parameter k1 = 1.5. -/
noncomputable def k1 : ℝ := 1.5

/-- BM25 parameter b = 0.75. -/
noncomputable def b : ℝ := 0.75

/-- The `freq` loop of `bm25_score`: the positions-list length of the first
posting of the term whose doc id is `pid`, 0 when there is none. -/
def freqOf (pid : String) (ps : List (String × List Nat)) : Nat :=
  match ps.find? (fun p => p.1 == pid) with
  | some p => p.2.length
  | none => 0

/-- One query term's BM25 contribution (body of the loop in `bm25_score`,
ranking.py lines 140-158): 0 for a term missing from the index or from the
document, otherwise `idf[t] * (freq*(k1+1)) / (freq + k1*(1-b+b*(dl/avg)))`. -/
noncomputable def bm25TermScore (pid : String) (idx : Index) (idf : String → ℝ)
    (dl : ℝ) (avg_len : ℝ) (t : String) : ℝ :=
  match lookupIdx idx t with
  | none => 0
  | some ps =>
    let freq := freqOf pid ps
    if freq = 0 then 0
    else idf t * (((freq : ℝ) * (k1 + 1)) / ((freq : ℝ) + k1 * (1 - b + b * (dl / avg_len))))

/-- `bm25_score` (ranking.py lines 136-160). -/
noncomputable def bm25_score (pid : String) (query_terms : List String)
    (idx : Index) (idf : String → ℝ) (avg_len : ℝ) : ℝ :=
  (query_terms.map
    (bm25TermScore pid idx idf ((compute_doc_len pid idx : ℕ) : ℝ) avg_len)).sum

/-- The document-vector entry `d_vec[term]` built by `rank_tfidf_cosine` and
`rank_custom_cosine`: `tf[term][position-of-doc-in-postings] * idf[term]`,
0 when the term or the document is missing (an absent dict entry counts 0 in
every sum it would enter).  The `getD` default is NOT a Python behaviour:
when the posting position reaches beyond `len(tf[term])`, the source raises
`IndexError` at `tf[term][doc_index]` (ranking.py lines 93 and 240) and
returns nothing.  The model therefore agrees with the source exactly on
inputs satisfying `tfAligned` below — every tf list at least as long as its
posting list, which the index builder guarantees with equality
(`c5_lengths`) — and every theorem that evaluates a score does so on such
an input. -/
noncomputable def dVec (idx : Index) (tf : String → List ℝ) (idf : String → ℝ)
    (pid : String) (t : String) : ℝ :=
  match lookupIdx idx t with
  | none => 0
  | some ps =>
    match ps.findIdx? (fun p => p.1 == pid) with
    | none => 0
    | some i => (tf t).getD i 0 * idf t

/-- The inputs on which `dVec` coincides with Python's
`tf[term][doc_index]`: each term's tf list covers every position of its
posting list, so the indexing never raises.  Index/tf pairs produced by
`create_index_tfidf` satisfy this with equal lengths (`c5_lengths`). -/
def tfAligned (idx : Index) (tf : String → List ℝ) : Prop :=
  ∀ t : String, ((lookupIdx idx t).getD []).length ≤ (tf t).length

/-- `cosine_similarity` (ranking.py lines 44-54).  The two dicts are
modelled as total functions over the shared key list (the distinct query
terms): entries the code leaves out of `d_vec` are 0 and contribute 0 to
the dot product and to the norms, so the sums agree with the dict sums. -/
noncomputable def cosine_similarity (keys : List String) (q_vec d_vec : String → ℝ) : ℝ :=
  let dot := (keys.map (fun t => q_vec t * d_vec t)).sum
  let norm_q := Real.sqrt ((keys.map (fun t => q_vec t * q_vec t)).sum)
  let norm_d := Real.sqrt ((keys.map (fun t => d_vec t * d_vec t)).sum)
  if norm_q = 0 ∨ norm_d = 0 then 0 else dot / (norm_q * norm_d)

/-- The score `rank_tfidf_cosine` assigns to one candidate document: the
query vector is `{t: idf.get(t, 0.0)}` over the distinct query terms. -/
noncomputable def tfidfScore (query_terms : List String) (idx : Index)
    (tf : String → List ℝ) (idf : String → ℝ) (pid : String) : ℝ :=
  cosine_similarity query_terms.dedup (fun t => idf t) (dVec idx tf idf pid)

/-- `rank_tfidf_cosine` (ranking.py lines 57-102) as the set of returned
(pid, score) pairs.  The final sort only permutes the list (Python iterates
the candidate set in unspecified order), so the result is modelled as the
finite set of pairs. -/
noncomputable def rank_tfidf_cosine (query_terms : List String) (idx : Index)
    (tf : String → List ℝ) (idf : String → ℝ) : Finset (String × ℝ) :=
  (candidateDocs query_terms idx).image
    (fun pid => (pid, tfidfScore query_terms idx tf idf pid))

/-- `rank_bm25` (ranking.py lines 163-183) as the set of returned pairs. -/
noncomputable def rank_bm25 (query_terms : List String) (idx : Index)
    (idf : String → ℝ) : Finset (String × ℝ) :=
  (candidateDocs query_terms idx).image
    (fun pid => (pid, bm25_score pid query_terms idx idf (compute_avg_doc_len idx)))

/-- The two numeric fields of a corpus `Document` consumed by
`rank_custom_cosine`; `doc.average_rating or 0.0` is `Option.getD 0`
(Python's `or` maps both `None` and `0.0` to `0.0`). -/
structure Document where
  average_rating : Option ℝ
  selling_price : Option ℝ

/-- `cosine_numeric` (ranking.py lines 188-197). -/
noncomputable def cosine_numeric (query_score query_price doc_score doc_price : ℝ) : ℝ :=
  let dot := query_score * doc_score + query_price * doc_price
  let norm_q := Real.sqrt (query_score ^ 2 + query_price ^ 2)
  let norm_d := Real.sqrt (doc_score ^ 2 + doc_price ^ 2)
  if norm_q = 0 ∨ norm_d = 0 then 0 else dot / (norm_q * norm_d)

/-- `rank_custom_cosine` (ranking.py lines 200-263) as the set of returned
pairs: the text cosine is built exactly as in `rank_tfidf_cosine`, the final
score is the 50/50 blend with the numeric cosine. -/
noncomputable def rank_custom_cosine (query_terms : List String) (idx : Index)
    (tf : String → List ℝ) (idf : String → ℝ) (corpus : String → Document)
    (query_score query_price : ℝ) : Finset (String × ℝ) :=
  (candidateDocs query_terms idx).image
    (fun pid =>
      (pid, 0.5 * tfidfScore query_terms idx tf idf pid
          + 0.5 * cosine_numeric query_score query_price
              ((corpus pid).average_rating.getD 0) ((corpus pid).selling_price.getD 0)))

end ranking

namespace ranking

/-- Characterization of the candidate loop: it ends in a non-`None`
candidate set containing `pid` exactly when `pid` occurs in every remaining
term's posting set and in the accumulator (which, when still Python `None`,
requires at least one loop iteration). -/
theorem candLoop_mem (idx : Index) (pid : String) :
    ∀ (qts : List String) (cand : Option (Finset String)),
      (∃ c, candLoop idx qts cand = some (some c) ∧ pid ∈ c) ↔
        ((∀ t ∈ qts, pid ∈ postingsSet idx t) ∧
          (cand.elim (qts ≠ []) (fun c0 => pid ∈ c0))) := by
  intro qts
  induction qts with
  | nil =>
    intro cand
    cases cand with
    | none => simp [candLoop]
    | some c0 => simp [candLoop]
  | cons t ts ih =>
    intro cand
    cases hl : lookupIdx idx t with
    | none =>
      have hps : postingsSet idx t = ∅ := by simp [postingsSet, hl]
      simp [candLoop, hl, hps]
    | some ps =>
      have hps : postingsSet idx t = (ps.map Prod.fst).toFinset := by
        simp [postingsSet, hl]
      cases cand with
      | none =>
        simp only [candLoop, hl]
        rw [ih]
        simp [hps, List.forall_mem_cons]
        tauto
      | some c0 =>
        simp only [candLoop, hl]
        rw [ih]
        simp [hps, List.forall_mem_cons, Finset.mem_inter]
        tauto

/-- Membership in the scored candidate set: `pid` is scored iff the query is
non-empty and `pid` lies in every query term's posting set (in particular,
a query term missing from the index makes the set empty). -/
theorem candidateDocs_mem (query_terms : List String) (idx : Index) (pid : String) :
    pid ∈ candidateDocs query_terms idx ↔
      (query_terms ≠ [] ∧ ∀ t ∈ query_terms, pid ∈ postingsSet idx t) := by
  unfold candidateDocs
  constructor
  · intro h
    cases hc : candLoop idx query_terms none with
    | none => rw [hc] at h; simp at h
    | some o =>
      cases o with
      | none => rw [hc] at h; simp at h
      | some c =>
        rw [hc] at h
        have hmem : pid ∈ c := by
          by_cases he : c = ∅
          · rw [he] at h; simp at h
          · simpa [he] using h
        have hspec := (candLoop_mem idx pid query_terms none).mp ⟨c, hc, hmem⟩
        exact ⟨hspec.2, hspec.1⟩
  · rintro ⟨hne, hall⟩
    obtain ⟨c, hc, hmem⟩ := (candLoop_mem idx pid query_terms none).mpr ⟨hall, hne⟩
    rw [hc]
    have hcne : c ≠ ∅ := by
      intro he
      rw [he] at hmem
      simp at hmem
    simp [hcne, hmem]

end ranking

/-- C2: each of the three rankers scores exactly the candidate set given by
pure AND semantics — a document id is returned iff the query is non-empty
and the id occurs in the posting-document-set of every query term; a query
term absent from the index (empty posting set) therefore yields the empty
result, and every returned id is contained in the postings of every query
term. -/
theorem c2_candidate_set (query_terms : List String) (idx : ranking.Index)
    (tf : String → List ℝ) (idf : String → ℝ) (corpus : String → ranking.Document)
    (query_score query_price : ℝ) (pid : String) :
    (pid ∈ (ranking.rank_tfidf_cosine query_terms idx tf idf).image Prod.fst ↔
      (query_terms ≠ [] ∧ ∀ t ∈ query_terms, pid ∈ ranking.postingsSet idx t)) ∧
    (pid ∈ (ranking.rank_bm25 query_terms idx idf).image Prod.fst ↔
      (query_terms ≠ [] ∧ ∀ t ∈ query_terms, pid ∈ ranking.postingsSet idx t)) ∧
    (pid ∈ (ranking.rank_custom_cosine query_terms idx tf idf corpus
        query_score query_price).image Prod.fst ↔
      (query_terms ≠ [] ∧ ∀ t ∈ query_terms, pid ∈ ranking.postingsSet idx t)) := by
  have himg : ∀ f : String → ℝ,
      ((ranking.candidateDocs query_terms idx).image (fun q => (q, f q))).image Prod.fst =
        ranking.candidateDocs query_terms idx := by
    intro f
    rw [Finset.image_image]
    ext x
    simp
  refine ⟨?_, ?_, ?_⟩
  · rw [ranking.rank_tfidf_cosine, himg]
    exact ranking.candidateDocs_mem query_terms idx pid
  · rw [ranking.rank_bm25, himg]
    exact ranking.candidateDocs_mem query_terms idx pid
  · rw [ranking.rank_custom_cosine, himg]
    exact ranking.candidateDocs_mem query_terms idx pid

/-- The index of a single document "d1" with two terms, one occurrence each:
its document length is 2 but `compute_avg_doc_len` records only the first
positions-list length. -/
def idxC1 : ranking.Index := [("a", [("d1", [0])]), ("b", [("d1", [1])])]

/-- C1: on an index whose only document "d1" occurs under two terms with one
position each, `compute_doc_len` is 2 (so the spec's average document length
— the mean of the total lengths, `avgDocLenSpec` — is 2), but the code's
`compute_avg_doc_len` returns 1: it records, per document, only the length
of the positions list under the first term enumerated, contradicting its own
docstring "Global average document length". -/
theorem c1_avg_eval :
    ranking.compute_doc_len "d1" idxC1 = 2 ∧
    ranking.compute_avg_doc_len idxC1 = 1 ∧
    ranking.avgDocLenSpec idxC1 = 2 ∧
    ranking.compute_avg_doc_len idxC1 ≠ ranking.avgDocLenSpec idxC1 := by
  have hdocs : ranking.docsInPostings idxC1 = ["d1"] := by decide
  have hdl : ranking.compute_doc_len "d1" idxC1 = 2 := by decide
  have hst : idxC1.foldl (fun st e => e.2.foldl ranking.avgStep st)
      (([], []) : List String × List Nat) = (["d1"], [1]) := by decide
  have h1 : ranking.compute_avg_doc_len idxC1 = 1 := by
    rw [ranking.compute_avg_doc_len, hst]
    norm_num
  have h2 : ranking.avgDocLenSpec idxC1 = 2 := by
    rw [ranking.avgDocLenSpec, hdocs]
    simp [hdl]
  exact ⟨hdl, h1, h2, by rw [h1, h2]; norm_num⟩

namespace ranking

/-- `tf[term][i]` with the out-of-range default 0: nonnegative whenever the
stored tf values are. -/
theorem getD_nonneg (l : List ℝ) (i : Nat) (h : ∀ x ∈ l, 0 ≤ x) :
    0 ≤ l.getD i 0 := by
  induction l generalizing i with
  | nil => simp
  | cons x xs ih =>
    cases i with
    | zero => simpa using h x (List.mem_cons_self x xs)
    | succ n => simpa using ih n (fun y hy => h y (List.mem_cons_of_mem x hy))

/-- A sum of pointwise-nonnegative values is nonnegative. -/
theorem sum_map_nonneg (l : List String) (f : String → ℝ)
    (h : ∀ t ∈ l, 0 ≤ f t) : 0 ≤ (l.map f).sum := by
  apply List.sum_nonneg
  intro x hx
  obtain ⟨t, ht, rfl⟩ := List.mem_map.mp hx
  exact h t ht

/-- The document-vector entries are nonnegative when the tf table and the
idf value are. -/
theorem dVec_nonneg (idx : Index) (tf : String → List ℝ) (idf : String → ℝ)
    (pid t : String) (hidf : 0 ≤ idf t) (htf : ∀ x ∈ tf t, 0 ≤ x) :
    0 ≤ dVec idx tf idf pid t := by
  cases hl : lookupIdx idx t with
  | none => simp [dVec, hl]
  | some ps =>
    cases hf : ps.findIdx? (fun p => p.1 == pid) with
    | none => simp [dVec, hl, hf]
    | some i =>
      simp only [dVec, hl, hf]
      exact mul_nonneg (getD_nonneg _ _ htf) hidf

/-- Cosine similarity of two vectors with nonnegative components is
nonnegative (0 in the zero-norm branch, otherwise a quotient of
nonnegatives). -/
theorem cosine_similarity_nonneg (keys : List String) (q_vec d_vec : String → ℝ)
    (hq : ∀ t ∈ keys, 0 ≤ q_vec t) (hd : ∀ t ∈ keys, 0 ≤ d_vec t) :
    0 ≤ cosine_similarity keys q_vec d_vec := by
  simp only [cosine_similarity]
  split
  · exact le_refl 0
  · apply div_nonneg
    · exact sum_map_nonneg _ _ (fun t ht => mul_nonneg (hq t ht) (hd t ht))
    · exact mul_nonneg (Real.sqrt_nonneg _) (Real.sqrt_nonneg _)

/-- The per-candidate TF-IDF cosine score is nonnegative for nonnegative tf
and idf tables. -/
theorem tfidfScore_nonneg (query_terms : List String) (idx : Index)
    (tf : String → List ℝ) (idf : String → ℝ) (pid : String)
    (hidf : ∀ t, 0 ≤ idf t) (htf : ∀ t, ∀ x ∈ tf t, 0 ≤ x) :
    0 ≤ tfidfScore query_terms idx tf idf pid :=
  cosine_similarity_nonneg _ _ _ (fun t _ => hidf t)
    (fun t _ => dVec_nonneg idx tf idf pid t (hidf t) (htf t))

/-- The average document length computed by the code is nonnegative. -/
theorem compute_avg_doc_len_nonneg (idx : Index) : 0 ≤ compute_avg_doc_len idx := by
  simp only [compute_avg_doc_len]
  split
  · norm_num
  · positivity

/-- One term's BM25 contribution is nonnegative for a nonnegative idf value,
document length and average length. -/
theorem bm25TermScore_nonneg (pid : String) (idx : Index) (idf : String → ℝ)
    (dl avg_len : ℝ) (t : String) (hidf : 0 ≤ idf t) (hdl : 0 ≤ dl)
    (havg : 0 ≤ avg_len) : 0 ≤ bm25TermScore pid idx idf dl avg_len t := by
  cases hl : lookupIdx idx t with
  | none => simp [bm25TermScore, hl]
  | some ps =>
    simp only [bm25TermScore, hl]
    split
    · exact le_refl 0
    · have hk1 : (0 : ℝ) ≤ k1 := by norm_num [k1]
      have hk11 : (0 : ℝ) ≤ k1 + 1 := by norm_num [k1]
      have hbb : (0 : ℝ) ≤ b := by norm_num [b]
      have h1b : (0 : ℝ) ≤ 1 - b := by norm_num [b]
      apply mul_nonneg hidf
      apply div_nonneg
      · exact mul_nonneg (Nat.cast_nonneg _) hk11
      · exact add_nonneg (Nat.cast_nonneg _)
          (mul_nonneg hk1 (add_nonneg h1b (mul_nonneg hbb (div_nonneg hdl havg))))

/-- The BM25 score of any candidate is nonnegative for a nonnegative idf
table and average length. -/
theorem bm25_score_nonneg (pid : String) (query_terms : List String)
    (idx : Index) (idf : String → ℝ) (avg_len : ℝ)
    (hidf : ∀ t, 0 ≤ idf t) (havg : 0 ≤ avg_len) :
    0 ≤ bm25_score pid query_terms idx idf avg_len := by
  apply sum_map_nonneg
  intro t _
  exact bm25TermScore_nonneg pid idx idf _ avg_len t (hidf t)
    (Nat.cast_nonneg _) havg

/-- The 2-dimensional numeric cosine is nonnegative on nonnegative inputs. -/
theorem cosine_numeric_nonneg (query_score query_price doc_score doc_price : ℝ)
    (h1 : 0 ≤ query_score) (h2 : 0 ≤ query_price) (h3 : 0 ≤ doc_score)
    (h4 : 0 ≤ doc_price) :
    0 ≤ cosine_numeric query_score query_price doc_score doc_price := by
  simp only [cosine_numeric]
  split
  · exact le_refl 0
  · apply div_nonneg
    · exact add_nonneg (mul_nonneg h1 h3) (mul_nonneg h2 h4)
    · exact mul_nonneg (Real.sqrt_nonneg _) (Real.sqrt_nonneg _)

end ranking

/-- C10 (amended): every (pid, score) pair returned by `rank_tfidf_cosine`,
`rank_bm25` and `rank_custom_cosine` has a nonnegative score, provided the
index and tf table are aligned (every posting position indexable in the tf
list, as the builder guarantees — outside that domain the source raises
`IndexError` instead of returning pairs), the tf and idf tables are
nonnegative (as the index builder produces them) and — for the custom
ranker, which blends in a numeric cosine over ratings and prices — the
caller-supplied target rating/price and the corpus ratings and prices are
nonnegative.  The original claim, which asserts this with no condition on
the numeric inputs of `rank_custom_cosine`, is refuted by
`c10_counterexample`. -/
theorem c10_nonneg (query_terms : List String) (idx : ranking.Index)
    (tf : String → List ℝ) (idf : String → ℝ) (corpus : String → ranking.Document)
    (query_score query_price : ℝ)
    (_htfal : ranking.tfAligned idx tf)
    (hidf : ∀ t, 0 ≤ idf t) (htf : ∀ t, ∀ x ∈ tf t, 0 ≤ x)
    (hqs : 0 ≤ query_score) (hqp : 0 ≤ query_price)
    (hrating : ∀ pid, 0 ≤ ((corpus pid).average_rating.getD 0))
    (hprice : ∀ pid, 0 ≤ ((corpus pid).selling_price.getD 0)) :
    (∀ p ∈ ranking.rank_tfidf_cosine query_terms idx tf idf, 0 ≤ p.2) ∧
    (∀ p ∈ ranking.rank_bm25 query_terms idx idf, 0 ≤ p.2) ∧
    (∀ p ∈ ranking.rank_custom_cosine query_terms idx tf idf corpus
        query_score query_price, 0 ≤ p.2) := by
  refine ⟨?_, ?_, ?_⟩
  · intro p hp
    obtain ⟨pid, _, rfl⟩ := Finset.mem_image.mp hp
    exact ranking.tfidfScore_nonneg query_terms idx tf idf pid hidf htf
  · intro p hp
    obtain ⟨pid, _, rfl⟩ := Finset.mem_image.mp hp
    exact ranking.bm25_score_nonneg pid query_terms idx idf _ hidf
      (ranking.compute_avg_doc_len_nonneg idx)
  · intro p hp
    obtain ⟨pid, _, rfl⟩ := Finset.mem_image.mp hp
    have htext := ranking.tfidfScore_nonneg query_terms idx tf idf pid hidf htf
    have hnum := ranking.cosine_numeric_nonneg query_score query_price
      ((corpus pid).average_rating.getD 0) ((corpus pid).selling_price.getD 0)
      hqs hqp (hrating pid) (hprice pid)
    have : (0 : ℝ) ≤ 0.5 * ranking.tfidfScore query_terms idx tf idf pid
        + 0.5 * ranking.cosine_numeric query_score query_price
            ((corpus pid).average_rating.getD 0) ((corpus pid).selling_price.getD 0) := by
      nlinarith
    exact this

/-- C10, counterexample to the unconditional claim: calling
`rank_custom_cosine` with target rating -1 (and a document rated 1) returns
("d1", -1/2) — a negative score, because the numeric cosine of the 2-vectors
(-1, 0) and (1, 0) is -1 while the text cosine is 0.  The input is
builder-consistent: `tf["a"] = [1.0]` covers the single posting of "a", so
the source runs the same computation without raising (its `tf[term][0]`
lookup is in range), and the text cosine is 0 because the query norm
`idf["a"] = 0` vanishes (a df = N term). -/
theorem c10_counterexample :
    ("d1", (-(1 / 2) : ℝ)) ∈ ranking.rank_custom_cosine ["a"] [("a", [("d1", [0])])]
      (fun _ => [1]) (fun _ => 0) (fun _ => ⟨some 1, some 0⟩) (-1) 0 ∧
    ¬ (0 ≤ (-(1 / 2) : ℝ)) := by
  constructor
  · have hcand : ("d1" : String) ∈ ranking.candidateDocs ["a"] [("a", [("d1", [0])])] := by
      decide
    have hdedup : (["a"] : List String).dedup = ["a"] := by decide
    have htext : ranking.tfidfScore ["a"] [("a", [("d1", [0])])]
        (fun _ => [1]) (fun _ => 0) "d1" = 0 := by
      rw [ranking.tfidfScore, hdedup]
      simp [ranking.cosine_similarity]
    have hnum : ranking.cosine_numeric (-1 : ℝ) 0
        (((⟨some 1, some 0⟩ : ranking.Document)).average_rating.getD 0)
        (((⟨some 1, some 0⟩ : ranking.Document)).selling_price.getD 0) = -1 := by
      norm_num [ranking.cosine_numeric, Real.sqrt_one]
    rw [ranking.rank_custom_cosine]
    refine Finset.mem_image.mpr ⟨"d1", hcand, ?_⟩
    rw [Prod.mk.injEq]
    refine ⟨rfl, ?_⟩
    rw [htext, hnum]
    norm_num
  · norm_num

/-- C10, witness for the amended theorem: a one-term index with zero idf,
the aligned tf table `tf["a"] = [1.0]`, target rating/price 0 and a
document with rating 1 and price 1 satisfies all hypotheses, and the
theorem yields nonnegativity of the three scores of the returned document
"d1". -/
theorem c10_witness :
    0 ≤ ranking.tfidfScore ["a"] [("a", [("d1", [0])])] (fun _ => [1]) (fun _ => 0) "d1" ∧
    0 ≤ ranking.bm25_score "d1" ["a"] [("a", [("d1", [0])])] (fun _ => 0)
      (ranking.compute_avg_doc_len [("a", [("d1", [0])])]) ∧
    0 ≤ (0.5 : ℝ) * ranking.tfidfScore ["a"] [("a", [("d1", [0])])]
        (fun _ => [1]) (fun _ => 0) "d1"
      + 0.5 * ranking.cosine_numeric 0 0
          ((((fun _ => ⟨some 1, some 1⟩ : String → ranking.Document)) "d1").average_rating.getD 0)
          ((((fun _ => ⟨some 1, some 1⟩ : String → ranking.Document)) "d1").selling_price.getD 0) := by
  have halign : ranking.tfAligned [("a", [("d1", [0])])] (fun _ => [(1 : ℝ)]) := by
    intro t
    by_cases ha : ("a" : String) = t
    · subst ha
      simp [ranking.lookupIdx]
    · have hbeq : (("a" : String) == t) = false := beq_eq_false_iff_ne.mpr ha
      simp [ranking.lookupIdx, List.find?, hbeq]
  have h := c10_nonneg ["a"] [("a", [("d1", [0])])] (fun _ => [1]) (fun _ => 0)
    (fun _ => ⟨some 1, some 1⟩) 0 0
    halign
    (fun _ => le_refl 0) (fun _ x hx => by simp at hx; rw [hx]; norm_num)
    (le_refl 0) (le_refl 0)
    (fun _ => by norm_num) (fun _ => by norm_num)
  have hcand : ("d1" : String) ∈ ranking.candidateDocs ["a"] [("a", [("d1", [0])])] := by
    decide
  refine ⟨?_, ?_, ?_⟩
  · exact h.1 _ (Finset.mem_image.mpr ⟨"d1", hcand, rfl⟩)
  · exact h.2.1 _ (Finset.mem_image.mpr ⟨"d1", hcand, rfl⟩)
  · exact h.2.2 _ (Finset.mem_image.mpr ⟨"d1", hcand, rfl⟩)

namespace search_engine

/-- The Python exception classes relevant to the `try/except TypeError`
around `rank_bm25` in `SearchEngine.search`. -/
inductive PyExc where
  | typeError
  | otherError
  deriving DecidableEq

/-- The "bm25" branch of `SearchEngine.search` (search_engine.py lines
139-147): `try: results = rank_bm25(...)` with `except TypeError:` falling
back to `rank_tfidf_cosine` on the same arguments.  The dynamic outcome of
the `rank_bm25` call is passed as an `Except` value (`Except.error e` = the
call raised `e`); the branch returns either a result list or the exception
it lets propagate. -/
noncomputable def search_bm25 (query_terms : List String) (idx : ranking.Index)
    (tf : String → List ℝ) (idf : String → ℝ)
    (attempt : Except PyExc (Finset (String × ℝ))) :
    Except PyExc (Finset (String × ℝ)) :=
  match attempt with
  | Except.ok r => Except.ok r
  | Except.error PyExc.typeError =>
      Except.ok (ranking.rank_tfidf_cosine query_terms idx tf idf)
  | Except.error e => Except.error e

end search_engine

/-- C8 (amended): the "bm25" branch returns the BM25 result when the call
succeeds, substitutes the TF-IDF cosine result only when the call raises
`TypeError` (the only exception class the handler names), and propagates
every other exception to the caller.  The original claim — that any internal
BM25 failure is caught and replaced by the TF-IDF result — is refuted by
`c8_counterexample`. -/
theorem c8_fallback (query_terms : List String) (idx : ranking.Index)
    (tf : String → List ℝ) (idf : String → ℝ) (r : Finset (String × ℝ))
    (e : search_engine.PyExc) :
    search_engine.search_bm25 query_terms idx tf idf (Except.ok r) = Except.ok r ∧
    search_engine.search_bm25 query_terms idx tf idf
        (Except.error search_engine.PyExc.typeError) =
      Except.ok (ranking.rank_tfidf_cosine query_terms idx tf idf) ∧
    (e ≠ search_engine.PyExc.typeError →
      search_engine.search_bm25 query_terms idx tf idf (Except.error e) =
        Except.error e) := by
  refine ⟨rfl, rfl, ?_⟩
  intro he
  cases e with
  | typeError => exact absurd rfl he
  | otherError => rfl

/-- C8, counterexample: a BM25 failure that is not a `TypeError` is not
caught — the branch returns the error itself, not the TF-IDF cosine
result. -/
theorem c8_counterexample :
    search_engine.search_bm25 [] [] (fun _ => []) (fun _ => 0)
        (Except.error search_engine.PyExc.otherError) =
      Except.error search_engine.PyExc.otherError ∧
    (Except.error search_engine.PyExc.otherError :
        Except search_engine.PyExc (Finset (String × ℝ))) ≠
      Except.ok (ranking.rank_tfidf_cosine [] [] (fun _ => []) (fun _ => 0)) := by
  constructor
  · rfl
  · intro h
    exact Except.noConfusion h

/-- C8, witness: the non-`TypeError` hypothesis of the propagation clause is
satisfiable, and the theorem evaluates the branch on it. -/
theorem c8_witness :
    search_engine.PyExc.otherError ≠ search_engine.PyExc.typeError ∧
    search_engine.search_bm25 ["x"] [] (fun _ => []) (fun _ => 0)
        (Except.error search_engine.PyExc.otherError) =
      Except.error search_engine.PyExc.otherError :=
  ⟨by decide,
    (c8_fallback ["x"] [] (fun _ => []) (fun _ => 0) ∅
      search_engine.PyExc.otherError).2.2 (by decide)⟩
